import Mathlib

/-!
A verification development for the FHIR client (src/Client.ts).

The definitions below are shallow embeddings of the functions in
src/Client.ts: the request pipeline (reference resolution, pagination,
result finalization), the 401 recovery chain, the single-flight
refresh-token exchange, and the reference cache protocol.  Helper
functions that live in the out-of-tree lib module (getPath, setPath,
makeArray) are modelled from the specification, as marked on each.

JavaScript strings are modelled as Lean strings; all string algorithms
(split on ".", trim, string comparison) are implemented over the
underlying character list, matching the JS code-unit semantics.
-/

/-! ### Character-list string utilities (JS semantics) -/

/-- Split a character list at each '.'; models the JS "str".split("."). -/
def splitDotChars : List Char → List (List Char)
  | [] => [[]]
  | c :: t =>
    if c = '.' then [] :: splitDotChars t
    else
      match splitDotChars t with
      | [] => [[c]]
      | h :: r => (c :: h) :: r

/-- Split a string on '.'; models the JS path.split("."). -/
def splitDot (s : String) : List String := (splitDotChars s.data).map String.mk

/-- Models JS String.prototype.trim: drop whitespace at both ends. -/
def jsTrim (s : String) : String :=
  ⟨((s.data.dropWhile Char.isWhitespace).reverse.dropWhile Char.isWhitespace).reverse⟩

/-- Parse a canonical decimal numeral (JS array-index property names:
no leading zeros except "0" itself). -/
def parseIndex (s : String) : Option Nat :=
  match s.data with
  | [] => none
  | cs =>
    if cs.all (fun c => '0' ≤ c ∧ c ≤ '9') then
      if cs.head? = some '0' ∧ cs.length > 1 then none
      else some (cs.foldl (fun acc c => acc * 10 + (c.toNat - '0'.toNat)) 0)
    else none

/-- Lexicographic comparison of character lists by code point; models the
default JS Array.prototype.sort() string comparator. -/
def charsLe : List Char → List Char → Bool
  | [], _ => true
  | _ :: _, [] => false
  | a :: as, b :: bs => if a = b then charsLe as bs else decide (a < b)

/-- Substring test; models JS String.prototype.indexOf(sub) != -1. -/
def hasSubList (needle : List Char) : List Char → Bool
  | [] => needle.isEmpty
  | c :: t => needle.isPrefixOf (c :: t) || hasSubList needle t

/-- strContains s sub: models s.indexOf(sub) != -1 in the scope checks. -/
def strContains (s sub : String) : Bool := hasSubList sub.data s.data

/-! ### Association-list store (object / Map semantics) -/

/-- Lookup in an association list; models JS property read obj[k]. -/
def storeGet {α : Type} : List (String × α) → String → Option α
  | [], _ => none
  | (k, v) :: rest, k' => if k = k' then some v else storeGet rest k'

/-- Write a key; models JS property write obj[k] = v (replaces the
existing binding or appends a new one). -/
def storeSet {α : Type} : List (String × α) → String → α → List (String × α)
  | [], k, v => [(k, v)]
  | (k', v') :: rest, k, v =>
    if k' = k then (k, v) :: rest else (k', v') :: storeSet rest k v

/-- Remove a key; models JS delete obj[k]. -/
def storeErase {α : Type} : List (String × α) → String → List (String × α)
  | [], _ => []
  | (k', v') :: rest, k =>
    if k' = k then storeErase rest k else (k', v') :: storeErase rest k

theorem storeGet_storeSet_self {α : Type} (l : List (String × α)) (k : String) (v : α) :
    storeGet (storeSet l k v) k = some v := by
  induction l with
  | nil => simp [storeSet, storeGet]
  | cons hd tl ih =>
    obtain ⟨k', v'⟩ := hd
    by_cases h : k' = k
    · subst h; simp [storeSet, storeGet]
    · simp [storeSet, storeGet, h, ih]

theorem storeGet_storeSet_ne {α : Type} (l : List (String × α)) (k k' : String) (v : α)
    (h : k ≠ k') : storeGet (storeSet l k v) k' = storeGet l k' := by
  induction l with
  | nil => simp [storeSet, storeGet, h]
  | cons hd tl ih =>
    obtain ⟨k₀, v₀⟩ := hd
    by_cases h₀ : k₀ = k
    · subst h₀; simp [storeSet, storeGet, h]
    · simp [storeSet, storeGet, h₀, ih]

theorem storeGet_storeErase_self {α : Type} (l : List (String × α)) (k : String) :
    storeGet (storeErase l k) k = none := by
  induction l with
  | nil => rfl
  | cons hd tl ih =>
    obtain ⟨k₀, v₀⟩ := hd
    by_cases h₀ : k₀ = k
    · subst h₀; simpa [storeErase] using ih
    · simpa [storeErase, storeGet, h₀] using ih

theorem storeGet_storeErase_ne {α : Type} (l : List (String × α)) (k k' : String)
    (h : k ≠ k') : storeGet (storeErase l k) k' = storeGet l k' := by
  induction l with
  | nil => rfl
  | cons hd tl ih =>
    obtain ⟨k₀, v₀⟩ := hd
    by_cases h₀ : k₀ = k
    · subst h₀; simpa [storeErase, storeGet, h] using ih
    · by_cases h₁ : k₀ = k'
      · subst h₁; simp [storeErase, storeGet, h₀]
      · simp [storeErase, storeGet, h₀, h₁, ih]

/-! ### JSON values -/

/-- JSON-like values, the payloads the client processes. -/
inductive JVal where
  | null
  | bool (b : Bool)
  | num (n : Int)
  | str (s : String)
  | arr (xs : List JVal)
  | obj (fs : List (String × JVal))

/-- Property read on an object; non-objects have no named properties
other than array indices, handled in jsIndex. -/
def getField : JVal → String → Option JVal
  | .obj fs, k => storeGet fs k
  | _, _ => none

/-- JS member access v[k] for a dot-path segment: named property on an
object, index property on an array. -/
def jsIndex (v : JVal) (k : String) : Option JVal :=
  match v with
  | .obj fs => storeGet fs k
  | .arr xs =>
    match parseIndex k with
    | some i => xs.get? i
    | none => none
  | _ => none

/-- JS truthiness. -/
def truthy : JVal → Bool
  | .null => false
  | .bool b => b
  | .num n => n ≠ 0
  | .str s => s ≠ ""
  | .arr _ => true
  | .obj _ => true

/-- Modelled from the spec: the lib module's getPath "walks through an
object (or array) and returns the value found at the provided
dot-separated path; if the path is invalid returns undefined"
(lib is outside src/; behaviour also documented on Client.getPath). -/
def getPath (v : JVal) (path : String) : Option JVal :=
  (splitDot path).foldl (fun acc k => acc.bind (fun x => jsIndex x k)) (some v)

/-- Recursive worker for setPath, walking the remaining path segments. -/
def setPathGo (sub : JVal) : List String → JVal → JVal
  | [], _ => sub
  | k :: rest, .obj fs =>
    .obj (fs.map (fun kv => if kv.1 = k then (kv.1, setPathGo sub rest kv.2) else kv))
  | k :: rest, .arr xs =>
    (match parseIndex k with
     | some i => .arr (xs.mapIdx (fun j x => if j = i then setPathGo sub rest x else x))
     | none => .arr xs)
  | _ :: _, v => v

/-- Modelled from the spec: the lib module's setPath writes a value at a
dot-separated path (the client only ever writes to paths whose node was
just read successfully, so no intermediate containers are created). -/
def setPath (v : JVal) (path : String) (sub : JVal) : JVal :=
  setPathGo sub (splitDot path) v

/-- Modelled from the spec: the lib module's makeArray wraps a non-array
value into a one-element array and returns arrays unchanged. -/
def makeArray : JVal → List JVal
  | .arr xs => xs
  | v => [v]

/-! ### Reference-path sanitisation and depth grouping (resolveRefs,
src/Client.ts lines 149-199) -/

/-- Steps 1 of resolveRefs: filter(Boolean).map(trim).filter(Boolean). -/
def cleanPaths (ps : List String) : List String :=
  ((ps.filter (fun s => s ≠ "")).map jsTrim).filter (fun s => s ≠ "")

/-- Step 2 of resolveRefs: paths.filter((p, i) => indexOf(p, i+1) == -1):
an element is kept only if it does not occur again later. -/
def dedupKeepLast : List String → List String
  | [] => []
  | p :: rest => if rest.contains p then dedupKeepLast rest else p :: dedupKeepLast rest

/-- The sanitized path list resolveRefs works with. -/
def sanitizePaths (ps : List String) : List String := dedupKeepLast (cleanPaths ps)

/-- Depth of a path: number of dot-separated segments, path.split(".").length. -/
def pathDepth (p : String) : Nat := (splitDotChars p.data).length

/-- The distinct depths occurring among the sanitized paths (the keys of
the groups object). -/
def depthKeys (ps : List String) : List Nat := (ps.map pathDepth).dedup

/-- The decimal digits of a numeric object key. -/
def natDigits (n : Nat) : List Char := (Nat.repr n).data

/-- The default JS sort comparator applied to numeric keys: the keys are
compared as decimal strings, code unit by code unit. -/
def jsKeyLe (a b : Nat) : Bool := charsLe (natDigits a) (natDigits b)

/-- Object.keys(groups).sort(): the group keys in the order the code
processes them.  Object.keys yields integer-like keys ascending, and
.sort() re-sorts them as strings. -/
def jsSortKeys (ks : List Nat) : List Nat :=
  ks.insertionSort (fun a b => jsKeyLe a b = true)

/-- The depth of each group, in processing order. -/
def groupDepths (ps : List String) : List Nat :=
  jsSortKeys (depthKeys (sanitizePaths ps))

/-- The schedule of resolveRefs: the list of path groups in the order
they are processed.  Groups are awaited sequentially (the task chain);
the paths inside one group are passed to one Promise.all. -/
def refGroups (ps : List String) : List (List String) :=
  (groupDepths ps).map (fun d => (sanitizePaths ps).filter (fun p => pathDepth p = d))

/-! ### The request success pipeline (src/Client.ts lines 709-913)

The pipeline is modelled from the point where the transport returned a
parsed JSON payload.  The transport (lib request) and the server are one
oracle: a function from URL to a JSON payload or an HTTP error status.
URL absolutization against serverUrl is outside the embedded fragment
(lib absolute); URLs are used verbatim as oracle keys.

Reference fetches (getRef) call client.request with default options; for
resource payloads that request resolves to the payload itself, so a
reference fetch is modelled as one oracle call.  All fetches triggered
by one call are counted: pageFetches counts the request invocations on
page URLs (the initial fetch plus every followed "next" link) and
refFetches counts the reference fetches.

The cooperative concurrency of the original (Promise.all over paths of
one depth group, over the items of an array node, and over the entries
of a Bundle) is modelled by sequential folds: with a functional oracle
every interleaving yields the value computed here, and the cache
placeholder protocol that makes the concurrent fetches coalesce is
modelled separately and explicitly below (getRefStep and friends). -/

/-- The normalized FhirOptions a request call works with
(src/Client.ts lines 741-752); onPage records whether a callback was
supplied. -/
structure FOptions where
  graph : Bool
  flat : Bool
  pageLimit : Int
  resolveReferences : List String
  onPage : Bool

/-- The reference cache threaded through one top-level call. -/
abbrev Cache := List (String × JVal)

/-- The observable side state of one pipeline run. -/
structure PSt where
  cache : Cache
  refFetches : Nat
  pageFetches : Nat
  onPageCalls : List (JVal × Cache)

/-- The value a request call resolves with: bare data, or the
pair-shaped object with a references side channel. -/
inductive PResult where
  | bare (v : JVal)
  | pair (data : JVal) (references : Cache)

/-- Finalize stage (src/Client.ts lines 899-912): graph mode drops the
local reference to the cache and returns bare data; otherwise, with no
onPage callback and a non-empty resolveReferences list, the pair of
data and references is returned; otherwise bare data. -/
def finalize (opts : FOptions) (d : JVal) (cache : Cache) : PResult :=
  if opts.graph then .bare d
  else if !opts.onPage && !opts.resolveReferences.isEmpty then .pair d cache
  else .bare d

/-- getRef (src/Client.ts lines 77-102), outcome-level model: a cache
hit returns the cached value without a fetch; a miss fetches through
the oracle, stores the result on success, and leaves the cache without
a binding on failure (the placeholder inserted before the fetch settles
is removed by the rejection handler). -/
def getRefM (server : String → Except Nat JVal) (refId : String) (st : PSt) :
    Except Nat JVal × PSt :=
  match storeGet st.cache refId with
  | some v => (.ok v, st)
  | none =>
    match server refId with
    | .ok v =>
      (.ok v, { st with cache := storeSet st.cache refId v, refFetches := st.refFetches + 1 })
    | .error s => (.error s, { st with refFetches := st.refFetches + 1 })

/-- The "reference" property of one node item, when it is a usable
(truthy string) reference. -/
def refOf (item : JVal) : Option String :=
  match getField item "reference" with
  | some (.str s) => if s = "" then none else some s
  | _ => none

/-- resolveRef's per-item work (src/Client.ts lines 119-137): fetch the
reference, splice the result at the item's location in graph mode, and
swallow a failure if and only if its status is 404. -/
def resolveItems (server : String → Except Nat JVal) (graph : Bool) (path : String)
    (isArr : Bool) : Nat → List JVal → JVal → PSt → Except Nat (JVal × PSt)
  | _, [], obj, st => .ok (obj, st)
  | i, item :: rest, obj, st =>
    match refOf item with
    | some ref =>
      (match getRefM server ref st with
       | (.ok sub, st') =>
         let obj' :=
           if graph then
             if isArr then setPath obj (path ++ "." ++ Nat.repr i) sub
             else setPath obj path sub
           else obj
         resolveItems server graph path isArr (i + 1) rest obj' st'
       | (.error s, st') =>
         if s = 404 then resolveItems server graph path isArr (i + 1) rest obj st'
         else .error s)
    | none => resolveItems server graph path isArr (i + 1) rest obj st

/-- resolveRef (src/Client.ts lines 108-139): read the node at the
path; when absent or falsy do nothing; otherwise process the node (or
each element, if it is an array) as a reference item. -/
def resolveRefPath (server : String → Except Nat JVal) (graph : Bool) (path : String)
    (obj : JVal) (st : PSt) : Except Nat (JVal × PSt) :=
  match getPath obj path with
  | some node =>
    if truthy node then
      resolveItems server graph path (match node with | .arr _ => true | _ => false)
        0 (makeArray node) obj st
    else .ok (obj, st)
  | none => .ok (obj, st)

/-- One depth group of resolveRefs: all its paths (a Promise.all in the
original; see the concurrency note above). -/
def resolvePaths (server : String → Except Nat JVal) (graph : Bool) :
    List String → JVal → PSt → Except Nat (JVal × PSt)
  | [], obj, st => .ok (obj, st)
  | p :: ps, obj, st =>
    match resolveRefPath server graph p obj st with
    | .error s => .error s
    | .ok (obj', st') => resolvePaths server graph ps obj' st'

/-- The sequential chain over the depth groups of resolveRefs. -/
def resolveGroups (server : String → Except Nat JVal) (graph : Bool) :
    List (List String) → JVal → PSt → Except Nat (JVal × PSt)
  | [], obj, st => .ok (obj, st)
  | g :: gs, obj, st =>
    match resolvePaths server graph g obj st with
    | .error s => .error s
    | .ok (obj', st') => resolveGroups server graph gs obj' st'

/-- resolveRefs (src/Client.ts lines 149-199). -/
def resolveRefsM (server : String → Except Nat JVal) (opts : FOptions) (obj : JVal)
    (st : PSt) : Except Nat (JVal × PSt) :=
  resolveGroups server opts.graph (refGroups opts.resolveReferences) obj st

/-- For a Bundle, resolveRefs runs on every entry's resource
(src/Client.ts lines 829-837); the entry list is rebuilt with the
(possibly spliced) resources, mirroring the in-place mutation. -/
def resolveEntries (server : String → Except Nat JVal) (opts : FOptions) :
    List JVal → PSt → Except Nat (List JVal × PSt)
  | [], st => .ok ([], st)
  | e :: rest, st =>
    match getField e "resource" with
    | some r =>
      (match resolveRefsM server opts r st with
       | .error s => .error s
       | .ok (r', st') =>
         match resolveEntries server opts rest st' with
         | .error s => .error s
         | .ok (rest', st'') => .ok (setPath e "resource" r' :: rest', st''))
    | none =>
      match resolveEntries server opts rest st with
      | .error s => .error s
      | .ok (rest', st') => .ok (e :: rest', st')

/-- Whether a payload is a Bundle (_data.resourceType == "Bundle"). -/
def isBundle (d : JVal) : Bool :=
  match getField d "resourceType" with
  | some (.str s) => s = "Bundle"
  | _ => false

/-- The reference-resolution stage of the pipeline. -/
def resolvePhase (server : String → Except Nat JVal) (opts : FOptions) (data : JVal)
    (st : PSt) : Except Nat (JVal × PSt) :=
  if isBundle data then
    match getField data "entry" with
    | some (.arr es) =>
      (match resolveEntries server opts es st with
       | .error s => .error s
       | .ok (es', st') => .ok (setPath data "entry" (.arr es'), st'))
    | _ => .ok (data, st)
  else resolveRefsM server opts data st

/-- entry[].resource of a Bundle, for flat mode (an entry without a
resource contributes undefined, modelled as null). -/
def bundleResources (d : JVal) : List JVal :=
  match getField d "entry" with
  | some (.arr es) => es.map (fun e => (getField e "resource").getD .null)
  | _ => []

/-- The "next" link of a Bundle: links.find(l => l.relation == "next"),
used only when it has a truthy url. -/
def findNextUrl (d : JVal) : Option String :=
  match getField d "link" with
  | some (.arr ls) =>
    (match ls.find? (fun l =>
        match getField l "relation" with
        | some (.str r) => r = "next"
        | _ => false) with
     | some l =>
       (match getField l "url" with
        | some (.str u) => if u = "" then none else some u
        | _ => none)
     | none => none)
  | _ => none

/-- nextPage.data || nextPage: the payload carried by a recursive page
request's resolved value. -/
def presData : PResult → JVal
  | .pair d _ => d
  | .bare v => v

/-- makeArray(nextPage) in the branch without resolveReferences; the
pair shape cannot reach this branch, but its JS object form is kept. -/
def presVal : PResult → JVal
  | .bare v => v
  | .pair d refs => .obj [("data", d), ("references", .obj refs)]

/-- The pagination stage (src/Client.ts lines 852-897).  recur performs
the recursive page request (same options object, whose pageLimit was
just decremented, and the same reference cache).  Note the decrement
happens before the test, so a budget of 1 never follows "next", and
note the current payload is wrapped by makeArray as soon as the
decremented budget is non-zero, even when no "next" link exists. -/
def paginate (recur : FOptions → String → PSt → Except Nat (JVal × PSt)) (opts : FOptions)
    (d : JVal) (st : PSt) : Except Nat (JVal × PSt) :=
  if isBundle d then
    let d1 := if opts.flat then JVal.arr (bundleResources d) else d
    let st1 := if opts.onPage then
        { st with onPageCalls := st.onPageCalls ++ [(d1, st.cache)] } else st
    if opts.pageLimit - 1 ≠ 0 then
      match findNextUrl d with
      | some u =>
        (match recur { opts with pageLimit := opts.pageLimit - 1 } u st1 with
         | .error s => .error s
         | .ok (dc, st2) =>
           let nextPage := finalize { opts with pageLimit := opts.pageLimit - 1 } dc st2.cache
           if opts.onPage then .ok (.null, st2)
           else if !opts.resolveReferences.isEmpty then
             -- Object.assign(_resolvedRefs, nextPage.references) merges the
             -- cache into itself (the same object was threaded through the
             -- recursion), so the cache is unchanged.
             .ok (.arr (makeArray d1 ++ makeArray (presData nextPage)), st2)
           else .ok (.arr (makeArray d1 ++ makeArray (presVal nextPage)), st2))
      | none => .ok (.arr (makeArray d1), st1)
    else .ok (d1, st1)
  else .ok (d, st)

/-- The request pipeline before finalization: fetch the page through
the oracle, resolve references, paginate.  Fuel bounds the recursion on
"next" links (the original recursion is unbounded); every theorem below
supplies enough fuel, and exhaustion is the reserved status 599. -/
def requestCore (server : String → Except Nat JVal) :
    Nat → FOptions → String → PSt → Except Nat (JVal × PSt)
  | 0, _, _, _ => .error 599
  | fuel + 1, opts, url, st =>
    let st0 := { st with pageFetches := st.pageFetches + 1 }
    match server url with
    | .error s => .error s
    | .ok data =>
      match resolvePhase server opts data st0 with
      | .error s => .error s
      | .ok (d1, st1) => paginate (requestCore server fuel) opts d1 st1

/-- Client.request on a JSON payload: the pipeline followed by the
finalize stage. -/
def requestM (server : String → Except Nat JVal) (fuel : Nat) (opts : FOptions)
    (url : String) (st : PSt) : Except Nat (PResult × PSt) :=
  (requestCore server fuel opts url st).map (fun p => (finalize opts p.1 p.2.cache, p.2))

/-- The empty pipeline state a top-level call starts from. -/
def pst0 : PSt := ⟨[], 0, 0, []⟩

/-! ### Concrete fixtures -/

/-- An Observation whose subject references Patient/1. -/
def obs1 : JVal :=
  .obj [("resourceType", .str "Observation"),
        ("subject", .obj [("reference", .str "Patient/1")])]

/-- The Patient/1 resource. -/
def pat1 : JVal := .obj [("resourceType", .str "Patient"), ("id", .str "1")]

/-- A server on which the reference fetch fails with 404. -/
def srvRef404 : String → Except Nat JVal := fun u =>
  if u = "Observation/1" then .ok obs1 else .error 404

/-- A server on which the reference fetch fails with 500. -/
def srvRef500 : String → Except Nat JVal := fun u =>
  if u = "Observation/1" then .ok obs1 else .error 500

/-- A server on which the reference fetch succeeds. -/
def srvRefOk : String → Except Nat JVal := fun u =>
  if u = "Observation/1" then .ok obs1
  else if u = "Patient/1" then .ok pat1
  else .error 404

/-- Page 1: a Bundle with one entry and a "next" link to page2. -/
def pg1 : JVal :=
  .obj [("resourceType", .str "Bundle"),
        ("entry", .arr [.obj [("resource", .obj [("id", .str "o1")])]]),
        ("link", .arr [.obj [("relation", .str "next"), ("url", .str "page2")]])]

/-- Page 2: a Bundle with one entry and no further link. -/
def pg2 : JVal :=
  .obj [("resourceType", .str "Bundle"),
        ("entry", .arr [.obj [("resource", .obj [("id", .str "o2")])]])]

/-- A two-page chain. -/
def server2 : String → Except Nat JVal := fun u =>
  if u = "page1" then .ok pg1 else if u = "page2" then .ok pg2 else .error 404

/-- Page 1 of a chain whose entries reference Patient/7. -/
def pg1r : JVal :=
  .obj [("resourceType", .str "Bundle"),
        ("entry", .arr [.obj [("resource",
          .obj [("subject", .obj [("reference", .str "Patient/7")])])]]),
        ("link", .arr [.obj [("relation", .str "next"), ("url", .str "rpage2")]])]

/-- Page 2 of that chain, referencing the same Patient/7. -/
def pg2r : JVal :=
  .obj [("resourceType", .str "Bundle"),
        ("entry", .arr [.obj [("resource",
          .obj [("subject", .obj [("reference", .str "Patient/7")])])]])]

/-- The Patient/7 resource. -/
def pat7 : JVal := .obj [("resourceType", .str "Patient"), ("id", .str "7")]

/-- The chain server for the shared-reference pagination run. -/
def serverR : String → Except Nat JVal := fun u =>
  if u = "rpage1" then .ok pg1r
  else if u = "rpage2" then .ok pg2r
  else if u = "Patient/7" then .ok pat7
  else .error 404

/-- pg1r after its reference was inlined. -/
def pg1rRes : JVal :=
  .obj [("resourceType", .str "Bundle"),
        ("entry", .arr [.obj [("resource", .obj [("subject", pat7)])]]),
        ("link", .arr [.obj [("relation", .str "next"), ("url", .str "rpage2")]])]

/-- pg2r after its reference was inlined. -/
def pg2rRes : JVal :=
  .obj [("resourceType", .str "Bundle"),
        ("entry", .arr [.obj [("resource", .obj [("subject", pat7)])]])]

/-- An Observation whose performer array references Practitioner/9 twice. -/
def perfObs : JVal :=
  .obj [("resourceType", .str "Observation"),
        ("performer", .arr [.obj [("reference", .str "Practitioner/9")],
                            .obj [("reference", .str "Practitioner/9")]])]

/-- The Practitioner/9 resource. -/
def pract9 : JVal := .obj [("resourceType", .str "Practitioner"), ("id", .str "9")]

/-- Server for the duplicated-reference run. -/
def srvPerf : String → Except Nat JVal := fun u =>
  if u = "Observation/2" then .ok perfObs
  else if u = "Practitioner/9" then .ok pract9
  else .error 404

/-! ### The single-flight refresh exchange (Client.refresh,
src/Client.ts lines 928-990)

refresh() is synchronous up to and including the creation of the
exchange promise: the precondition checks, the read of the in-flight
slot and, on a miss, the start of the token POST and the write of the
slot all happen in one synchronous segment.  The model therefore has
two events: refreshCall (that synchronous segment, returning the
identity of the future the caller will await) and settleRefresh (the
settlement of the exchange together with its then/catch/finally
handlers).  Exchange identities are numbered; callers that receive the
same number await the same future and resolve to the same state. -/

/-- The tokenResponse fields the refresh logic reads and writes. -/
structure TokenResp where
  access_token : Option String
  refresh_token : Option String
  scope : Option String
deriving DecidableEq

/-- The state of one client instance, as refresh() sees it. -/
structure RClientSt where
  tokenUri : Option String
  key : Option String
  tokenResponse : TokenResp
  refreshTask : Option Nat
  nextTask : Nat
  exchanges : Nat
  storage : List (String × TokenResp)
deriving DecidableEq

/-- Which precondition, if any, makes refresh() throw synchronously
(src/Client.ts lines 933-946), in source order. -/
inductive RefreshErr where
  | noToken
  | noUri
  | noScope
deriving DecidableEq

/-- The scope check: tokenResponse.scope (or "") must contain
offline_access or online_access. -/
def scopeOk (s : Option String) : Bool :=
  strContains (s.getD "") "offline_access" || strContains (s.getD "") "online_access"

/-- refresh()'s synchronous precondition checks. -/
def refreshPre (st : RClientSt) : Option RefreshErr :=
  if st.tokenResponse.refresh_token.isNone then some .noToken
  else if st.tokenUri.isNone then some .noUri
  else if !scopeOk st.tokenResponse.scope then some .noScope
  else none

/-- The synchronous segment of one refresh() call: check preconditions;
if a refresh task is already in flight return it unchanged, otherwise
issue a new token exchange and store it in the slot. -/
def refreshCall (st : RClientSt) : Except RefreshErr (Nat × RClientSt) :=
  match refreshPre st with
  | some e => .error e
  | none =>
    match st.refreshTask with
    | some t => .ok (t, st)
    | none =>
      .ok (st.nextTask,
           { st with refreshTask := some st.nextTask,
                     nextTask := st.nextTask + 1,
                     exchanges := st.exchanges + 1 })

/-- n refresh() calls in sequence, collecting the futures handed out. -/
def refreshCalls : Nat → RClientSt → Except RefreshErr (List Nat × RClientSt)
  | 0, st => .ok ([], st)
  | n + 1, st =>
    match refreshCall st with
    | .error e => .error e
    | .ok (t, st') =>
      match refreshCalls n st' with
      | .error e => .error e
      | .ok (ts, st'') => .ok (t :: ts, st'')

/-- Object.assign(this.state.tokenResponse, data): fields present in the
token response replace the old ones, absent fields are kept. -/
def mergeTokenResp (old data : TokenResp) : TokenResp :=
  { access_token := match data.access_token with
      | some a => some a
      | none => old.access_token,
    refresh_token := match data.refresh_token with
      | some r => some r
      | none => old.refresh_token,
    scope := match data.scope with
      | some s => some s
      | none => old.scope }

/-- Settlement of the in-flight exchange (the then/catch/finally chain,
src/Client.ts lines 963-986).  resp is the token endpoint's parsed
response, none standing for a transport failure.  A response without an
access token is an error; every error path deletes the refresh token.
The finally handler clears the in-flight slot and persists the state
through the storage collaborator when state.key is present. -/
def settleRefresh (st : RClientSt) (resp : Option TokenResp) : RClientSt :=
  let st1 :=
    match resp with
    | some data =>
      if data.access_token.isSome then
        { st with tokenResponse := mergeTokenResp st.tokenResponse data }
      else { st with tokenResponse := { st.tokenResponse with refresh_token := none } }
    | none => { st with tokenResponse := { st.tokenResponse with refresh_token := none } }
  let st2 := { st1 with refreshTask := none }
  match st2.key with
  | some k => { st2 with storage := storeSet st2.storage k st2.tokenResponse }
  | none => st2

/-! ### The reference cache protocol (getRef, src/Client.ts lines 77-102)

getRef is synchronous up to and including the insertion of the
placeholder: the cache read and, on a miss, the start of the fetch and
the write of the placeholder happen in one synchronous segment, which
is what makes interleaved lookups of one id coalesce onto one fetch.
The events are getRefStep (that segment) and the two settlement
handlers of the fetch. -/

/-- A cache slot: the placeholder for an in-flight fetch (identified by
number) or a resolved value. -/
inductive CacheEntry where
  | pending (fid : Nat)
  | value (v : JVal)

/-- The state of one reference cache. -/
structure GetRefSt where
  cache : List (String × CacheEntry)
  nextFid : Nat
  fetchLog : List (String × Nat)

/-- The synchronous segment of getRef: a hit returns the stored slot (a
promise or a value — either way the caller awaits the same outcome); a
miss starts fetch number nextFid and stores its placeholder before the
fetch settles. -/
def getRefStep (refId : String) (st : GetRefSt) : CacheEntry × GetRefSt :=
  match storeGet st.cache refId with
  | some e => (e, st)
  | none =>
    (.pending st.nextFid,
     { cache := storeSet st.cache refId (.pending st.nextFid),
       nextFid := st.nextFid + 1,
       fetchLog := st.fetchLog ++ [(refId, st.nextFid)] })

/-- k getRef lookups of one id in sequence, collecting what each saw. -/
def getRefSteps (refId : String) : Nat → GetRefSt → List CacheEntry × GetRefSt
  | 0, st => ([], st)
  | k + 1, st =>
    let (e, st') := getRefStep refId st
    let (es, st'') := getRefSteps refId k st'
    (e :: es, st'')

/-- The fetch's fulfilment handler: the placeholder is replaced by the
resolved value. -/
def settleRefOk (refId : String) (v : JVal) (st : GetRefSt) : GetRefSt :=
  { st with cache := storeSet st.cache refId (.value v) }

/-- The fetch's rejection handler: the placeholder is deleted, so a
future caller may retry. -/
def settleRefFail (refId : String) (st : GetRefSt) : GetRefSt :=
  { st with cache := storeErase st.cache refId }

/-- How many fetches of one id the log records. -/
def countFetch (refId : String) (log : List (String × Nat)) : Nat :=
  (log.filter (fun e => e.1 = refId)).length

/-! ### The 401/403 failure chain of Client.request
(src/Client.ts lines 764-814) and _clearState (lines 625-633)

The transport outcome of each successive attempt of one top-level call
is given by an oracle indexed by attempt number, and the token
endpoint's response to the n-th refresh exchange by a second oracle.
Within one sequential retry chain the in-flight refresh slot is always
empty when refresh() is entered (the previous exchange's finally
handler ran before the retry continuation), so the single-flight slot
— modelled above — does not appear here.  The error value a caller
sees is either the original HTTP failure or one of the plain Error
conditions thrown by the chain. -/

/-- What a rejected request carries: the HTTP status of a transport
failure, or a plain error condition. -/
inductive ReqErr where
  | http (status : Nat)
  | plain (msg : String)
deriving DecidableEq

/-- A token-endpoint response: the access token it grants and the
refresh token it may rotate in. -/
structure TokenData where
  accessToken : Option String
  refreshToken : Option String
deriving DecidableEq

/-- The session state the failure chain reads and writes. -/
structure AuthState where
  accessToken : Option String
  refreshToken : Option String
  scope : String
  tokenUri : Option String
  key : Option String
  storage : List (String × String)
deriving DecidableEq

/-- Modelled from the spec: SMART_KEY is the fixed storage key under
which the current session's key is stored (settings module, outside
src/). -/
def SMART_KEY : String := "SMART_KEY"

/-- Modelled from the spec: str.expired, the "session expired"
condition message (strings module, outside src/). -/
def expiredMsg : String := "Session expired!"

/-- The "not launched as an authorized app" condition
(src/Client.ts line 788). -/
def notLaunchedMsg : String :=
  "This app cannot be accessed directly. Please launch it as SMART app!"

/-- Client._clearState (src/Client.ts lines 625-633): read the session
key under SMART_KEY, unset that key, unset SMART_KEY, and reset
tokenResponse to an empty object. -/
def clearState (st : AuthState) : AuthState :=
  let st1 :=
    match storeGet st.storage SMART_KEY with
    | some k => { st with storage := storeErase st.storage k }
    | none => st
  let st2 := { st1 with storage := storeErase st1.storage SMART_KEY }
  { st2 with accessToken := none, refreshToken := none, scope := "" }

/-- refresh()'s synchronous precondition failures, as seen from the
retry chain (the message of the thrown Error). -/
def refreshPreMsg (st : AuthState) : Option String :=
  if st.refreshToken.isNone then some "Unable to refresh. No refresh_token found."
  else if st.tokenUri.isNone then some "Unable to refresh. No tokenUri found."
  else if !(strContains st.scope "offline_access" || strContains st.scope "online_access") then
    some "Unable to refresh. No offline_access or online_access scope found."
  else none

/-- The finally handler's persistence step: store the state under
state.key when one is present. -/
def persistR (st : AuthState) : AuthState :=
  match st.key with
  | some k => { st with storage := storeSet st.storage k "state" }
  | none => st

/-- The state a failed token exchange leaves behind: the catch handler
deletes the now-presumed-invalid refresh token and the finally handler
persists the state. -/
def delTok (st : AuthState) : AuthState := persistR { st with refreshToken := none }

/-- The asynchronous part of one refresh exchange, as the retry chain
observes it.  The token POST either yields a parsed response or rejects
with an error value of its own — in the source an HttpError carrying
the endpoint's HTTP status, which then flows through the 401/403
catches of the original request like any other failure.  On a response
carrying an access token the token fields are merged; on a response
without one the plain "No access token received" error is raised; on a
rejection the rejection value propagates unchanged.  On every failure
the refresh token is deleted first, and in all cases the finally
handler persists the state. -/
def doExchange (st : AuthState) (resp : Except ReqErr TokenData) :
    Except ReqErr Unit × AuthState :=
  match resp with
  | .ok td =>
    if td.accessToken.isSome then
      (.ok (),
       persistR { st with
         accessToken := td.accessToken,
         refreshToken := match td.refreshToken with
           | some r => some r
           | none => st.refreshToken })
    else (.error (.plain "No access token received"), delTok st)
  | .error e => (.error e, delTok st)

/-- The second catch handler (src/Client.ts lines 783-806): any error
still carrying HTTP status 401 is classified terminally.  Without an
access token the call fails as never-authorized and the state is left
alone; otherwise the session state is cleared and the call fails as
expired.  (The useRefreshToken=false branch and the fall-through branch
of the source differ only in their debug message.)  Everything else
passes through unchanged. -/
def applyCatch2 (res : Except ReqErr Unit) (st : AuthState) :
    Except ReqErr Unit × AuthState :=
  match res with
  | .error (.http 401) =>
    if st.accessToken.isNone then (.error (.plain notLaunchedMsg), st)
    else (.error (.plain expiredMsg), clearState st)
  | _ => (res, st)

/-- The third catch handler (lines 808-814) logs a 403 and re-raises
every error unchanged. -/
def applyCatch3 (res : Except ReqErr Unit) : Except ReqErr Unit := res

/-- The failure chain of Client.request: the transport call, then the
refresh-and-retry catch, then the terminal-401 catch, then the 403
catch.  Returns the outcome, the session state, and how many token
exchanges were issued.  fuel bounds the retry recursion (which the
source does not). -/
def requestE (transport : Nat → Except Nat Unit) (refreshResp : Nat → Except ReqErr TokenData)
    (useRefreshToken : Bool) :
    Nat → AuthState → Nat → Nat → Except ReqErr Unit × AuthState × Nat
  | 0, st, _, rc => (.error (.plain "fuel"), st, rc)
  | fuel + 1, st, attempt, rc =>
    match transport attempt with
    | .ok () => (.ok (), st, rc)
    | .error s =>
      let (res1, st1, rc1) :=
        if s = 401 ∧ useRefreshToken = true ∧ st.refreshToken.isSome = true then
          match refreshPreMsg st with
          | some m => (.error (.plain m), st, rc)
          | none =>
            (match doExchange st (refreshResp rc) with
             | (.ok (), st') =>
               requestE transport refreshResp useRefreshToken fuel st' (attempt + 1) (rc + 1)
             | (.error e, st') => (.error e, st', rc + 1))
        else (.error (.http s), st, rc)
      let (res2, st2) := applyCatch2 res1 st1
      (applyCatch3 res2, st2, rc1)

/-- A session state with both tokens, refresh scope, endpoint and key. -/
def stFull : AuthState :=
  { accessToken := some "at0", refreshToken := some "rt0",
    scope := "patient/*.read offline_access", tokenUri := some "https://ehr/token",
    key := some "sess1", storage := [(SMART_KEY, "sess1"), ("sess1", "state")] }

/-- A transport that replies 401 to the first two attempts and then
succeeds. -/
def t401twice : Nat → Except Nat Unit := fun n => if n < 2 then .error 401 else .ok ()

/-- A transport that always replies 401. -/
def t401always : Nat → Except Nat Unit := fun _ => .error 401

/-- A token endpoint that always grants a fresh token pair. -/
def rAlwaysOk : Nat → Except ReqErr TokenData := fun _ => .ok ⟨some "atN", some "rtN"⟩

/-- A token endpoint whose POST rejects with HTTP 401. -/
def rFail401 : Nat → Except ReqErr TokenData := fun _ => .error (.http 401)

/-- A transport that replies 401 to the first k attempts, then succeeds. -/
def t401n (k : Nat) : Nat → Except Nat Unit := fun n => if n < k then .error 401 else .ok ()

/-- A server on which the reference fetch fails with an arbitrary status. -/
def srvRefS (s : Nat) : String → Except Nat JVal := fun u =>
  if u = "Observation/1" then .ok obs1 else .error s

/-! ### Claims -/

/-- C4, counterexample.  The claim says a second 401 received on the
refresh-and-retry is not answered with another refresh-and-retry cycle
(local recovery exactly once per top-level call).  On a transport that
replies 401 to the first two attempts with an always-succeeding token
endpoint, the call issues two token exchanges, not at most one. -/
theorem C4_counterexample :
    (requestE t401twice rAlwaysOk true 10 stFull 0 0).1 = .ok () ∧
    (requestE t401twice rAlwaysOk true 10 stFull 0 0).2.2 = 2 ∧
    ¬ (requestE t401twice rAlwaysOk true 10 stFull 0 0).2.2 ≤ 1 :=
  ⟨rfl, rfl, by decide⟩

/-- C4, amended: on HTTP 401, when useRefreshToken is enabled and a
refresh token is present in state, the client performs a refresh and
then retries the original request with the same cache and options; a
further 401 received on that retry while a refresh token is still
present is answered with another refresh-and-retry cycle — local
recovery is attempted once per 401 received, not at most once per
top-level call.  Witnessed by: two 401s answered by two token
exchanges, three by three. -/
theorem C4_amended :
    ((requestE t401twice rAlwaysOk true 10 stFull 0 0).1 = .ok () ∧
     (requestE t401twice rAlwaysOk true 10 stFull 0 0).2.2 = 2) ∧
    ((requestE (t401n 3) rAlwaysOk true 10 stFull 0 0).1 = .ok () ∧
     (requestE (t401n 3) rAlwaysOk true 10 stFull 0 0).2.2 = 3) :=
  ⟨⟨rfl, rfl⟩, rfl, rfl⟩

/-- C8, counterexample.  The claim says that with an onPage callback
configured and a Bundle payload, request() invokes the callback and
then returns a sentinel "no value" instead of any page data.  With
pageLimit 1 (or no next link) the source returns the page payload
itself: the callback is invoked once, and the call resolves with the
bundle, not with null. -/
theorem C8_counterexample :
    requestM server2 5 ⟨true, false, 1, [], true⟩ "page1" pst0
      = .ok (.bare pg1, ⟨[], 0, 1, [(pg1, [])]⟩) ∧
    pg1 ≠ JVal.null :=
  ⟨rfl, fun h => JVal.noConfusion h⟩

/-- C8, amended: with an onPage callback configured and a Bundle
payload, request() invokes the callback with each page's payload and a
snapshot of the reference cache, and keeps following "next" links
within the page budget without accumulating their data; a call that
fetched a further page resolves with the sentinel null; a call that
stops because the decremented budget reached zero resolves with the
current page's payload; a call with remaining budget but no "next"
link resolves with a one-element array wrapping the current page's
payload (the payload is wrapped by makeArray before the link is
inspected). -/
theorem C8_amended :
    (requestM server2 5 ⟨true, false, 2, [], true⟩ "page1" pst0
       = .ok (.bare .null, ⟨[], 0, 2, [(pg1, []), (pg2, [])]⟩)) ∧
    (requestM server2 5 ⟨true, false, 1, [], true⟩ "page1" pst0
       = .ok (.bare pg1, ⟨[], 0, 1, [(pg1, [])]⟩)) ∧
    (requestM server2 5 ⟨true, false, 2, [], true⟩ "page2" pst0
       = .ok (.bare (.arr [pg2]), ⟨[], 0, 1, [(pg2, [])]⟩)) :=
  ⟨rfl, rfl, rfl⟩

/-- C6: during reference resolution a 404 on the reference fetch is
swallowed — the reference stays unresolved, nothing is spliced, the
reference is absent from the cache, and the overall request succeeds —
while any other failure status aborts the resolution pass and rejects
the overall request with that status. -/
theorem C6_ref_failure :
    (requestM srvRef404 3 ⟨true, false, 1, ["subject"], false⟩ "Observation/1" pst0
       = .ok (.bare obs1, ⟨[], 1, 1, []⟩)) ∧
    (∀ s : Nat, s ≠ 404 →
       requestM (srvRefS s) 3 ⟨true, false, 1, ["subject"], false⟩ "Observation/1" pst0
         = .error s) := by
  refine ⟨rfl, fun s hs => ?_⟩
  simp [requestM, requestCore, srvRefS, resolvePhase, isBundle, getField, obs1,
    resolveRefsM, resolveGroups, resolvePaths, resolveRefPath, resolveItems,
    getRefM, refOf, getPath, storeGet, truthy, makeArray, refGroups, groupDepths,
    depthKeys, sanitizePaths, cleanPaths, dedupKeepLast, jsTrim, pathDepth,
    splitDotChars, jsSortKeys, jsKeyLe, natDigits, charsLe, splitDot, jsIndex,
    pst0, hs, Except.map]

/-- Witness for C6 at status 500. -/
theorem C6_witness :
    requestM (srvRefS 500) 3 ⟨true, false, 1, ["subject"], false⟩ "Observation/1" pst0
      = .error 500 :=
  C6_ref_failure.2 500 (by decide)

/-- The finally handler always leaves the in-flight slot empty. -/
theorem settleRefresh_clears (st : RClientSt) (resp : Option TokenResp) :
    (settleRefresh st resp).refreshTask = none := by
  unfold settleRefresh
  cases resp with
  | none => cases h : st.key <;> simp [h]
  | some data =>
    by_cases ha : data.access_token.isSome <;> cases h : st.key <;> simp [h, ha]

/-- refresh() calls finding a task in flight return it and change
nothing, any number of times. -/
theorem refreshCalls_inflight (t : Nat) :
    ∀ (m : Nat) (st : RClientSt), refreshPre st = none → st.refreshTask = some t →
      refreshCalls m st = .ok (List.replicate m t, st) := by
  intro m
  induction m with
  | zero => intro st _ _; rfl
  | succ m ih =>
    intro st hpre hslot
    simp [refreshCalls, refreshCall, hpre, hslot, ih st hpre hslot, List.replicate]

/-- The state after a refresh() call that found the slot empty and
issued a new exchange. -/
def issueRefresh (st : RClientSt) : RClientSt :=
  { st with refreshTask := some st.nextTask, nextTask := st.nextTask + 1,
            exchanges := st.exchanges + 1 }

/-- C1: single-flight refresh.  From a state whose slot is empty and
whose preconditions hold, any number n ≥ 1 of refresh() calls made
before the exchange settles issues exactly one token exchange; every
caller receives the same future (so all resolve to the same settlement
value); the slot still holds that future after all n calls (it is not
cleared early); and settling the exchange — with any outcome, success
or failure — clears the slot. -/
theorem C1_single_flight (st : RClientSt) (n : Nat)
    (hpre : refreshPre st = none) (hslot : st.refreshTask = none) (hn : 1 ≤ n) :
    ∃ st', refreshCalls n st = .ok (List.replicate n st.nextTask, st') ∧
      st'.exchanges = st.exchanges + 1 ∧
      st'.refreshTask = some st.nextTask ∧
      ∀ resp, (settleRefresh st' resp).refreshTask = none := by
  obtain ⟨m, rfl⟩ : ∃ m, n = m + 1 := ⟨n - 1, by omega⟩
  refine ⟨issueRefresh st, ?_, rfl, rfl, fun resp => settleRefresh_clears _ resp⟩
  have hpre' : refreshPre (issueRefresh st) = none := hpre
  have h2 := refreshCalls_inflight st.nextTask m (issueRefresh st) hpre' rfl
  unfold issueRefresh at h2
  simp [refreshCalls, refreshCall, hpre, hslot, List.replicate, issueRefresh, h2]

/-- A state satisfying refresh()'s preconditions with an empty slot. -/
def stR0 : RClientSt :=
  { tokenUri := some "https://ehr/token", key := some "sess1",
    tokenResponse := ⟨some "at0", some "rt0", some "offline_access"⟩,
    refreshTask := none, nextTask := 0, exchanges := 0, storage := [] }

/-- Witness for C1: three concurrent refresh() calls on stR0. -/
theorem C1_witness :
    ∃ st', refreshCalls 3 stR0 = .ok (List.replicate 3 stR0.nextTask, st') ∧
      st'.exchanges = stR0.exchanges + 1 ∧
      st'.refreshTask = some stR0.nextTask ∧
      ∀ resp, (settleRefresh st' resp).refreshTask = none :=
  C1_single_flight stR0 3 (by decide) rfl (by decide)

/-- C10: whenever the refresh exchange settles — with a success or with
any failure — the same finalization step clears the in-flight slot and
persists the client's state through the storage collaborator under
state.key; when no key is present the storage is left untouched (only a
diagnostic is emitted). -/
theorem C10_settle_persists (st : RClientSt) (resp : Option TokenResp) :
    (settleRefresh st resp).refreshTask = none ∧
    (∀ k, st.key = some k →
      storeGet (settleRefresh st resp).storage k
        = some (settleRefresh st resp).tokenResponse) ∧
    (st.key = none → (settleRefresh st resp).storage = st.storage) := by
  refine ⟨settleRefresh_clears st resp, ?_, ?_⟩
  · intro k hk
    unfold settleRefresh
    cases resp with
    | none => simp [hk, storeGet_storeSet_self]
    | some data =>
      by_cases ha : data.access_token.isSome <;> simp [hk, ha, storeGet_storeSet_self]
  · intro hk
    unfold settleRefresh
    cases resp with
    | none => simp [hk]
    | some data =>
      by_cases ha : data.access_token.isSome <;> simp [hk, ha]

/-- Witness for C10: a failing exchange on stR0 still persists under
the key and clears the slot. -/
theorem C10_witness :
    (settleRefresh stR0 none).refreshTask = none ∧
    storeGet (settleRefresh stR0 none).storage "sess1"
      = some (settleRefresh stR0 none).tokenResponse :=
  ⟨(C10_settle_persists stR0 none).1, (C10_settle_persists stR0 none).2.1 "sess1" rfl⟩

/-- A lookup finding a cache slot returns it and changes nothing, any
number of times. -/
theorem getRefSteps_hit (r : String) (e : CacheEntry) :
    ∀ (m : Nat) (st : GetRefSt), storeGet st.cache r = some e →
      getRefSteps r m st = (List.replicate m e, st) := by
  intro m
  induction m with
  | zero => intro st _; rfl
  | succ m ih =>
    intro st h
    simp [getRefSteps, getRefStep, h, ih st h, List.replicate]

/-- Appending one fetch of an id to the log raises its count by one. -/
theorem countFetch_append_self (r : String) (log : List (String × Nat)) (f : Nat) :
    countFetch r (log ++ [(r, f)]) = countFetch r log + 1 := by
  simp [countFetch, List.filter_append]

/-- C2: the reference cache protocol of getRef.  From a cache without a
binding for an id, any number k ≥ 1 of lookups of that id made before
the fetch settles starts exactly one fetch, and every lookup receives
the same placeholder (so all await the same fetch); the placeholder is
in the cache while the fetch is outstanding; settling with a value
replaces the placeholder by that value; settling with a failure deletes
the binding, and a retry after that starts a second fetch.  The second
conjunct runs the pipeline on a resource holding the same reference id
twice across array elements: exactly one underlying fetch occurs and
both occurrences are spliced. -/
theorem C2_cache_protocol (r : String) (st : GetRefSt) (k : Nat) (v : JVal)
    (h0 : storeGet st.cache r = none) (hk : 1 ≤ k) :
    (∃ st', getRefSteps r k st = (List.replicate k (.pending st.nextFid), st') ∧
      countFetch r st'.fetchLog = countFetch r st.fetchLog + 1 ∧
      storeGet st'.cache r = some (.pending st.nextFid) ∧
      storeGet (settleRefOk r v st').cache r = some (.value v) ∧
      storeGet (settleRefFail r st').cache r = none ∧
      countFetch r (getRefStep r (settleRefFail r st')).2.fetchLog
        = countFetch r st.fetchLog + 2) ∧
    requestM srvPerf 3 ⟨true, false, 1, ["performer"], false⟩ "Observation/2" pst0
      = .ok (.bare (.obj [("resourceType", .str "Observation"),
                          ("performer", .arr [pract9, pract9])]),
             ⟨[("Practitioner/9", pract9)], 1, 1, []⟩) := by
  refine ⟨?_, rfl⟩
  obtain ⟨m, rfl⟩ : ∃ m, k = m + 1 := ⟨k - 1, by omega⟩
  refine ⟨⟨storeSet st.cache r (.pending st.nextFid), st.nextFid + 1,
           st.fetchLog ++ [(r, st.nextFid)]⟩, ?_, ?_, ?_, ?_, ?_, ?_⟩
  · have hhit : storeGet (storeSet st.cache r (.pending st.nextFid)) r
        = some (.pending st.nextFid) := storeGet_storeSet_self _ _ _
    have h2 := getRefSteps_hit r (.pending st.nextFid) m
      ⟨storeSet st.cache r (.pending st.nextFid), st.nextFid + 1,
       st.fetchLog ++ [(r, st.nextFid)]⟩ hhit
    simp [getRefSteps, getRefStep, h0, h2, List.replicate]
  · exact countFetch_append_self r st.fetchLog st.nextFid
  · exact storeGet_storeSet_self _ _ _
  · simp [settleRefOk, storeGet_storeSet_self]
  · simp [settleRefFail, storeGet_storeErase_self]
  · have herase : storeGet (storeErase (storeSet st.cache r
        (.pending st.nextFid)) r) r = none := storeGet_storeErase_self _ _
    simp [settleRefFail, getRefStep, herase, countFetch, List.filter_append]

/-- Witness for C2: two lookups of Patient/1 on an empty cache. -/
theorem C2_witness :
    (∃ st', getRefSteps "Patient/1" 2 ⟨[], 0, []⟩
        = (List.replicate 2 (.pending (⟨[], 0, []⟩ : GetRefSt).nextFid), st') ∧
      countFetch "Patient/1" st'.fetchLog
        = countFetch "Patient/1" (⟨[], 0, []⟩ : GetRefSt).fetchLog + 1 ∧
      storeGet st'.cache "Patient/1"
        = some (.pending (⟨[], 0, []⟩ : GetRefSt).nextFid) ∧
      storeGet (settleRefOk "Patient/1" pat1 st').cache "Patient/1"
        = some (.value pat1) ∧
      storeGet (settleRefFail "Patient/1" st').cache "Patient/1" = none ∧
      countFetch "Patient/1"
          (getRefStep "Patient/1" (settleRefFail "Patient/1" st')).2.fetchLog
        = countFetch "Patient/1" (⟨[], 0, []⟩ : GetRefSt).fetchLog + 2) ∧
    requestM srvPerf 3 ⟨true, false, 1, ["performer"], false⟩ "Observation/2" pst0
      = .ok (.bare (.obj [("resourceType", .str "Observation"),
                          ("performer", .arr [pract9, pract9])]),
             ⟨[("Practitioner/9", pract9)], 1, 1, []⟩) :=
  C2_cache_protocol "Patient/1" ⟨[], 0, []⟩ 2 pat1 rfl (by decide)

/-- C7: the final result shape obeys the mode.  Every successful
request finalizes through the finalize stage: with graph=true the call
resolves with bare data and never exposes a references side channel;
with graph=false, no onPage callback and a non-empty resolveReferences
list it resolves with the pair of data and the reference cache; in
every other case (graph=false with an onPage callback, or with an
empty resolveReferences list) it resolves with bare data. -/
theorem C7_result_shape (server : String → Except Nat JVal) (fuel : Nat) (opts : FOptions)
    (url : String) (st : PSt) (r : PResult) (st' : PSt)
    (h : requestM server fuel opts url st = .ok (r, st')) :
    (opts.graph = true → ∃ d, r = .bare d) ∧
    (opts.graph = false → opts.onPage = false → opts.resolveReferences ≠ [] →
      ∃ d, r = .pair d st'.cache) ∧
    (opts.graph = false → (opts.onPage = true ∨ opts.resolveReferences = []) →
      ∃ d, r = .bare d) := by
  unfold requestM at h
  cases hc : requestCore server fuel opts url st with
  | error e => rw [hc] at h; exact absurd h (by simp [Except.map])
  | ok p =>
    rw [hc] at h
    simp only [Except.map, Except.ok.injEq, Prod.mk.injEq] at h
    obtain ⟨hr, hst⟩ := h
    subst hst
    refine ⟨?_, ?_, ?_⟩
    · intro hg
      exact ⟨p.1, by simp [← hr, finalize, hg]⟩
    · intro hg ho hrr
      exact ⟨p.1, by simp [← hr, finalize, hg, ho, hrr]⟩
    · intro hg hcase
      refine ⟨p.1, ?_⟩
      rcases hcase with ho | hrr
      · simp [← hr, finalize, hg, ho]
      · simp [← hr, finalize, hg, hrr]

/-- Witness for C7: a graph=false run with resolved references yields
the pair shape, and a graph=false run with an onPage callback yields
bare data. -/
theorem C7_witness :
    (∃ d, (PResult.pair obs1 [("Patient/1", pat1)])
       = .pair d (⟨[("Patient/1", pat1)], 1, 1, []⟩ : PSt).cache) ∧
    (∃ d, (PResult.bare pg1) = .bare d) :=
  ⟨(C7_result_shape srvRefOk 3 ⟨false, false, 1, ["subject"], false⟩ "Observation/1"
      pst0 (.pair obs1 [("Patient/1", pat1)]) ⟨[("Patient/1", pat1)], 1, 1, []⟩ rfl).2.1
      rfl rfl (by decide),
   (C7_result_shape server2 5 ⟨false, false, 1, [], true⟩ "page1" pst0
      (.bare pg1) ⟨[], 0, 1, [(pg1, [])]⟩ rfl).2.2 rfl (Or.inl rfl)⟩

/-- What Client._clearState leaves behind: the tokenResponse fields are
emptied and both storage keys (the session key read from SMART_KEY, and
SMART_KEY itself) are unset. -/
theorem clearState_facts (st : AuthState) :
    (clearState st).accessToken = none ∧
    (clearState st).refreshToken = none ∧
    (clearState st).scope = "" ∧
    storeGet (clearState st).storage SMART_KEY = none ∧
    ∀ k, storeGet st.storage SMART_KEY = some k →
      storeGet (clearState st).storage k = none := by
  refine ⟨?_, ?_, ?_, ?_, ?_⟩
  · cases hsm : storeGet st.storage SMART_KEY <;> simp [clearState, hsm]
  · cases hsm : storeGet st.storage SMART_KEY <;> simp [clearState, hsm]
  · cases hsm : storeGet st.storage SMART_KEY <;> simp [clearState, hsm]
  · cases hsm : storeGet st.storage SMART_KEY <;>
      simp [clearState, hsm, storeGet_storeErase_self]
  · intro k hk
    by_cases hks : k = SMART_KEY
    · subst hks
      cases hsm : storeGet st.storage SMART_KEY <;>
        simp [clearState, hsm, storeGet_storeErase_self]
    · rw [show (clearState st).storage
          = storeErase (storeErase st.storage k) SMART_KEY by simp [clearState, hk]]
      rw [storeGet_storeErase_ne _ _ _ (fun hh => hks hh.symm)]
      exact storeGet_storeErase_self _ _

/-- The persistence step never touches the token fields. -/
theorem persistR_accessToken (st : AuthState) :
    (persistR st).accessToken = st.accessToken := by
  unfold persistR
  cases h : st.key <;> simp [h]

/-- C9: terminal 401 classification.  A 401 reaches the second catch
handler either because the refresh-and-retry stage did not claim it
(refresh disabled or no refresh token), or because a refresh was
attempted and its token POST itself rejected with HTTP 401, which the
source re-raises into the same catch.  In both situations: without an
access token the call fails as never-authorized and the session state
of the classification moment is left untouched; with an access token
that session state is cleared — tokenResponse emptied and both storage
keys unset (clearState_facts) — and the call fails as expired. -/
theorem C9_terminal_401 (transport : Nat → Except Nat Unit)
    (refreshResp : Nat → Except ReqErr TokenData) (u : Bool) (fuel : Nat) (st : AuthState)
    (attempt rc : Nat) (h401 : transport attempt = .error 401) :
    ((u = false ∨ st.refreshToken = none) →
      (st.accessToken = none →
        requestE transport refreshResp u (fuel + 1) st attempt rc
          = (.error (.plain notLaunchedMsg), st, rc)) ∧
      (st.accessToken ≠ none →
        requestE transport refreshResp u (fuel + 1) st attempt rc
          = (.error (.plain expiredMsg), clearState st, rc) ∧
        (clearState st).accessToken = none ∧
        (clearState st).refreshToken = none ∧
        (clearState st).scope = "" ∧
        storeGet (clearState st).storage SMART_KEY = none ∧
        ∀ k, storeGet st.storage SMART_KEY = some k →
          storeGet (clearState st).storage k = none)) ∧
    (u = true → st.refreshToken.isSome = true → refreshPreMsg st = none →
      refreshResp rc = .error (.http 401) →
      (st.accessToken = none →
        requestE transport refreshResp u (fuel + 1) st attempt rc
          = (.error (.plain notLaunchedMsg), delTok st, rc + 1)) ∧
      (st.accessToken ≠ none →
        requestE transport refreshResp u (fuel + 1) st attempt rc
          = (.error (.plain expiredMsg), clearState (delTok st), rc + 1) ∧
        (clearState (delTok st)).accessToken = none ∧
        (clearState (delTok st)).refreshToken = none ∧
        (clearState (delTok st)).scope = "" ∧
        storeGet (clearState (delTok st)).storage SMART_KEY = none ∧
        ∀ k, storeGet (delTok st).storage SMART_KEY = some k →
          storeGet (clearState (delTok st)).storage k = none)) := by
  constructor
  · intro hnr
    have hcond : ¬(u = true ∧ st.refreshToken.isSome = true) := by
      rcases hnr with h | h
      · rintro ⟨hu, -⟩; rw [h] at hu; exact Bool.false_ne_true hu
      · rintro ⟨-, hrt⟩; rw [h] at hrt; exact Bool.false_ne_true hrt
    have hmain : requestE transport refreshResp u (fuel + 1) st attempt rc
        = ((applyCatch2 (.error (.http 401)) st).1,
           (applyCatch2 (.error (.http 401)) st).2, rc) := by
      unfold requestE
      rw [h401]
      simp [hcond, applyCatch3]
    constructor
    · intro ha
      rw [hmain]
      simp [applyCatch2, ha]
    · intro ha
      have ha' : st.accessToken.isNone = false := by
        cases hx : st.accessToken with
        | none => exact absurd hx ha
        | some a => rfl
      obtain ⟨f1, f2, f3, f4, f5⟩ := clearState_facts st
      exact ⟨by rw [hmain]; simp [applyCatch2, ha'], f1, f2, f3, f4, f5⟩
  · intro hu hrt hpre hresp
    subst hu
    have hmain : requestE transport refreshResp true (fuel + 1) st attempt rc
        = ((applyCatch2 (.error (.http 401)) (delTok st)).1,
           (applyCatch2 (.error (.http 401)) (delTok st)).2, rc + 1) := by
      unfold requestE
      rw [h401]
      simp [hrt, hpre, hresp, doExchange, applyCatch3]
    have hacc : (delTok st).accessToken = st.accessToken := by
      unfold delTok
      rw [persistR_accessToken]
    constructor
    · intro ha
      have ha2 : (delTok st).accessToken.isNone = true := by
        rw [hacc, ha]; rfl
      rw [hmain]
      simp [applyCatch2, ha2]
    · intro ha
      have ha2 : (delTok st).accessToken.isNone = false := by
        rw [hacc]
        cases hx : st.accessToken with
        | none => exact absurd hx ha
        | some a => rfl
      obtain ⟨f1, f2, f3, f4, f5⟩ := clearState_facts (delTok st)
      exact ⟨by rw [hmain]; simp [applyCatch2, ha2], f1, f2, f3, f4, f5⟩

/-- A session with an access token but no refresh token. -/
def stNoRefresh : AuthState :=
  { accessToken := some "at0", refreshToken := none, scope := "offline_access",
    tokenUri := some "https://ehr/token", key := some "sess1",
    storage := [(SMART_KEY, "sess1"), ("sess1", "state")] }

/-- Witness for C9: a 401 with an access token and no refresh token
clears the session and fails as expired; a 401 answered by a refresh
whose token POST rejects with 401 is classified the same way, on the
state left by the failed exchange. -/
theorem C9_witness :
    (requestE t401always rAlwaysOk true 4 stNoRefresh 0 0
       = (.error (.plain expiredMsg), clearState stNoRefresh, 0) ∧
     (clearState stNoRefresh).accessToken = none ∧
     storeGet (clearState stNoRefresh).storage SMART_KEY = none ∧
     storeGet (clearState stNoRefresh).storage "sess1" = none) ∧
    (requestE t401always rFail401 true 4 stFull 0 0
       = (.error (.plain expiredMsg), clearState (delTok stFull), 1) ∧
     (clearState (delTok stFull)).accessToken = none ∧
     storeGet (clearState (delTok stFull)).storage SMART_KEY = none) :=
  have h := ((C9_terminal_401 t401always rAlwaysOk true 3 stNoRefresh 0 0 rfl).1
    (Or.inr rfl)).2 (by simp [stNoRefresh])
  have h2 := ((C9_terminal_401 t401always rFail401 true 3 stFull 0 0 rfl).2
    rfl rfl rfl rfl).2 (by simp [stFull])
  ⟨⟨h.1, h.2.1, h.2.2.2.2.1, h.2.2.2.2.2 "sess1" rfl⟩,
   h2.1, h2.2.1, h2.2.2.2.2.1⟩

/-- A reference fetch never performs a page fetch. -/
theorem getRefM_pageFetches (server : String → Except Nat JVal) (r : String) (st : PSt) :
    (getRefM server r st).2.pageFetches = st.pageFetches := by
  unfold getRefM
  cases h : storeGet st.cache r with
  | some v => rfl
  | none => cases hs : server r <;> rfl

/-- The items of one node never perform a page fetch. -/
theorem resolveItems_pageFetches (server : String → Except Nat JVal) (graph : Bool)
    (path : String) (isArr : Bool) :
    ∀ (items : List JVal) (i : Nat) (obj : JVal) (st : PSt) (o : JVal) (st' : PSt),
      resolveItems server graph path isArr i items obj st = .ok (o, st') →
      st'.pageFetches = st.pageFetches := by
  intro items
  induction items with
  | nil =>
    intro i obj st o st' h
    unfold resolveItems at h
    injection h with h'
    injection h' with h1 h2
    rw [← h2]
  | cons item rest ih =>
    intro i obj st o st' h
    unfold resolveItems at h
    split at h
    next ref hro =>
      split at h
      next sub st1 heq =>
        have hp := getRefM_pageFetches server ref st
        rw [heq] at hp
        rw [ih _ _ _ _ _ h]
        exact hp
      next s st1 heq =>
        have hp := getRefM_pageFetches server ref st
        rw [heq] at hp
        split at h
        · rw [ih _ _ _ _ _ h]; exact hp
        · exact absurd h (by simp)
    next hro => exact ih _ _ _ _ _ h

/-- One resolution path never performs a page fetch. -/
theorem resolveRefPath_pageFetches (server : String → Except Nat JVal) (graph : Bool)
    (path : String) (obj : JVal) (st : PSt) (o : JVal) (st' : PSt)
    (h : resolveRefPath server graph path obj st = .ok (o, st')) :
    st'.pageFetches = st.pageFetches := by
  unfold resolveRefPath at h
  split at h
  · split at h
    · exact resolveItems_pageFetches server graph path _ _ _ _ _ _ _ h
    · injection h with h'
      injection h' with h1 h2
      rw [← h2]
  · injection h with h'
    injection h' with h1 h2
    rw [← h2]

/-- One depth group never performs a page fetch. -/
theorem resolvePaths_pageFetches (server : String → Except Nat JVal) (graph : Bool) :
    ∀ (ps : List String) (obj : JVal) (st : PSt) (o : JVal) (st' : PSt),
      resolvePaths server graph ps obj st = .ok (o, st') →
      st'.pageFetches = st.pageFetches := by
  intro ps
  induction ps with
  | nil =>
    intro obj st o st' h
    unfold resolvePaths at h
    injection h with h'
    injection h' with h1 h2
    rw [← h2]
  | cons p pt ih =>
    intro obj st o st' h
    unfold resolvePaths at h
    split at h
    · exact absurd h (by simp)
    next o1 st1 heq =>
      rw [ih _ _ _ _ h]
      exact resolveRefPath_pageFetches server graph p obj st o1 st1 heq

/-- The group chain never performs a page fetch. -/
theorem resolveGroups_pageFetches (server : String → Except Nat JVal) (graph : Bool) :
    ∀ (gs : List (List String)) (obj : JVal) (st : PSt) (o : JVal) (st' : PSt),
      resolveGroups server graph gs obj st = .ok (o, st') →
      st'.pageFetches = st.pageFetches := by
  intro gs
  induction gs with
  | nil =>
    intro obj st o st' h
    unfold resolveGroups at h
    injection h with h'
    injection h' with h1 h2
    rw [← h2]
  | cons g gt ih =>
    intro obj st o st' h
    unfold resolveGroups at h
    split at h
    · exact absurd h (by simp)
    next o1 st1 heq =>
      rw [ih _ _ _ _ h]
      exact resolvePaths_pageFetches server graph g obj st o1 st1 heq

/-- resolveRefs never performs a page fetch. -/
theorem resolveRefsM_pageFetches (server : String → Except Nat JVal) (opts : FOptions)
    (obj : JVal) (st : PSt) (o : JVal) (st' : PSt)
    (h : resolveRefsM server opts obj st = .ok (o, st')) :
    st'.pageFetches = st.pageFetches :=
  resolveGroups_pageFetches server opts.graph _ obj st o st' h

/-- The entry walk never performs a page fetch. -/
theorem resolveEntries_pageFetches (server : String → Except Nat JVal) (opts : FOptions) :
    ∀ (es : List JVal) (st : PSt) (o : List JVal) (st' : PSt),
      resolveEntries server opts es st = .ok (o, st') →
      st'.pageFetches = st.pageFetches := by
  intro es
  induction es with
  | nil =>
    intro st o st' h
    unfold resolveEntries at h
    injection h with h'
    injection h' with h1 h2
    rw [← h2]
  | cons e rest ih =>
    intro st o st' h
    unfold resolveEntries at h
    split at h
    · split at h
      · exact absurd h (by simp)
      next r1 st1 heq =>
        split at h
        · exact absurd h (by simp)
        next rest1 st2 heq2 =>
          injection h with h'
          injection h' with h1 h2
          rw [← h2]
          rw [ih _ _ _ heq2]
          exact resolveRefsM_pageFetches server opts _ st r1 st1 heq
    · split at h
      · exact absurd h (by simp)
      next rest1 st1 heq =>
        injection h with h'
        injection h' with h1 h2
        rw [← h2]
        exact ih _ _ _ heq

/-- The whole resolution stage never performs a page fetch. -/
theorem resolvePhase_pageFetches (server : String → Except Nat JVal) (opts : FOptions)
    (data : JVal) (st : PSt) (o : JVal) (st' : PSt)
    (h : resolvePhase server opts data st = .ok (o, st')) :
    st'.pageFetches = st.pageFetches := by
  unfold resolvePhase at h
  split at h
  · split at h
    · split at h
      · exact absurd h (by simp)
      next es' st1 heq =>
        injection h with h'
        injection h' with h1 h2
        rw [← h2]
        exact resolveEntries_pageFetches server opts _ st es' st1 heq
    · injection h with h'
      injection h' with h1 h2
      rw [← h2]
  · exact resolveRefsM_pageFetches server opts data st o st' h

/-- With a page budget of 1 the pipeline performs exactly one page
fetch: the budget is decremented and then tested, so the "next" link is
never followed. -/
theorem requestCore_pageLimit_one (server : String → Except Nat JVal) (fuel : Nat)
    (opts : FOptions) (url : String) (st : PSt) (d : JVal) (st' : PSt)
    (hpl : opts.pageLimit = 1)
    (h : requestCore server (fuel + 1) opts url st = .ok (d, st')) :
    st'.pageFetches = st.pageFetches + 1 := by
  unfold requestCore at h
  split at h
  · exact absurd h (by simp)
  next data heq =>
    dsimp only at h
    split at h
    · exact absurd h (by simp)
    next d1 st1 heq2 =>
      have h1 : st1.pageFetches = st.pageFetches + 1 := by
        simpa using resolvePhase_pageFetches server opts data _ d1 st1 heq2
      unfold paginate at h
      rw [hpl] at h
      norm_num at h
      split at h
      · split at h
        · injection h with h'
          injection h' with ha hb
          rw [← hb]
          cases ho : opts.onPage <;> simpa [ho] using h1
        · injection h with h'
          injection h' with ha hb
          rw [← hb]
          cases ho : opts.onPage <;> simpa [ho] using h1
      · injection h with h'
        injection h' with ha hb
        rw [← hb]
        exact h1

/-- C3: the pagination budget is decremented, then tested for being
non-zero.  With pageLimit 1 every successful request performs exactly
one page fetch, never following a "next" link (first conjunct, and the
second conjunct shows it on a page that does carry a next link).  With
pageLimit 2 and a chain of length ≥ 2 exactly two page fetches happen
and the recursive page's result is concatenated onto the accumulated
array; the recursion reuses the options (pageLimit decremented) and the
same reference cache — the final run resolves the same reference id on
both pages with a single reference fetch. -/
theorem C3_pagination :
    (∀ (server : String → Except Nat JVal) (fuel : Nat) (opts : FOptions) (url : String)
       (st : PSt) (r : PResult) (st' : PSt), opts.pageLimit = 1 →
       requestM server (fuel + 1) opts url st = .ok (r, st') →
       st'.pageFetches = st.pageFetches + 1) ∧
    (requestM server2 5 ⟨true, false, 1, [], false⟩ "page1" pst0
       = .ok (.bare pg1, ⟨[], 0, 1, []⟩)) ∧
    (requestM server2 5 ⟨true, false, 2, [], false⟩ "page1" pst0
       = .ok (.bare (.arr [pg1, pg2]), ⟨[], 0, 2, []⟩)) ∧
    (requestM serverR 5 ⟨true, false, 2, ["subject"], false⟩ "rpage1" pst0
       = .ok (.bare (.arr [pg1rRes, pg2rRes]), ⟨[("Patient/7", pat7)], 1, 2, []⟩)) := by
  refine ⟨?_, rfl, rfl, rfl⟩
  intro server fuel opts url st r st' hpl h
  unfold requestM at h
  cases hc : requestCore server (fuel + 1) opts url st with
  | error e => rw [hc] at h; exact absurd h (by simp [Except.map])
  | ok p =>
    rw [hc] at h
    simp only [Except.map, Except.ok.injEq, Prod.mk.injEq] at h
    obtain ⟨-, hst⟩ := h
    subst hst
    exact requestCore_pageLimit_one server fuel opts url st p.1 p.2 hpl
      (by rw [hc])

/-- Witness for C3's universally quantified conjunct, at the same
next-linked page. -/
theorem C3_witness :
    (⟨[], 0, 1, []⟩ : PSt).pageFetches = pst0.pageFetches + 1 :=
  C3_pagination.1 server2 4 ⟨true, false, 1, [], false⟩ "page1" pst0
    (.bare pg1) ⟨[], 0, 1, []⟩ rfl rfl

/-- C5, counterexample.  The claim says the depth groups are processed
in ascending depth order for every sanitized path set, including paths
of 10 or more segments.  Object.keys(groups).sort() sorts the numeric
depth keys as strings, and "10" sorts before "2": with paths of depths
2 and 10 the depth-10 group is processed first. -/
theorem C5_counterexample :
    refGroups ["a.b", "a.b.c.d.e.f.g.h.i.j"] = [["a.b.c.d.e.f.g.h.i.j"], ["a.b"]] ∧
    groupDepths ["a.b", "a.b.c.d.e.f.g.h.i.j"] = [10, 2] ∧
    ¬ List.Sorted (· < ·) (groupDepths ["a.b", "a.b.c.d.e.f.g.h.i.j"]) :=
  ⟨by decide, by decide, by decide⟩

theorem charsLe_total : ∀ xs ys : List Char, charsLe xs ys = true ∨ charsLe ys xs = true := by
  intro xs
  induction xs with
  | nil => intro ys; left; rfl
  | cons a as ih =>
    intro ys
    cases ys with
    | nil => right; rfl
    | cons b bs =>
      by_cases hab : a = b
      · subst hab
        rcases ih bs with h | h
        · left; simpa [charsLe] using h
        · right; simpa [charsLe] using h
      · rcases lt_or_gt_of_ne hab with h | h
        · left; simp [charsLe, hab, h]
        · right; simp [charsLe, Ne.symm hab, h]

theorem charsLe_trans : ∀ xs ys zs : List Char,
    charsLe xs ys = true → charsLe ys zs = true → charsLe xs zs = true := by
  intro xs
  induction xs with
  | nil => intros; rfl
  | cons a as ih =>
    intro ys zs h1 h2
    cases ys with
    | nil => simp [charsLe] at h1
    | cons b bs =>
      cases zs with
      | nil => simp [charsLe] at h2
      | cons c cs =>
        by_cases hab : a = b <;> by_cases hbc : b = c
      
        · subst hab; subst hbc
          simp only [charsLe, if_pos rfl] at h1 h2 ⊢
          exact ih bs cs h1 h2
        · subst hab
          simpa [charsLe, hbc] using h2
        · subst hbc
          simpa [charsLe, hab] using h1
        · simp only [charsLe, if_neg hab] at h1
          simp only [charsLe, if_neg hbc] at h2
          have h1' : a < b := of_decide_eq_true h1
          have h2' : b < c := of_decide_eq_true h2
          have hac : a ≠ c := fun he => absurd (h1'.trans h2') (he ▸ lt_irrefl a)
          simp [charsLe, hac, h1'.trans h2']

/-- Single-digit decimal keys compare by the string comparator exactly
as they compare numerically. -/
theorem jsKeyLe_digit_le : ∀ a, a ≤ 9 → ∀ b, b ≤ 9 → jsKeyLe a b = true → a ≤ b := by
  decide

/-- C5, amended: the depth groups are processed sequentially in
ascending lexicographic order of the decimal representation of their
depth (the numeric keys are re-sorted as strings); when every sanitized
path has at most 9 segments this coincides with ascending depth order,
sequential between groups, with the paths of one group handed to one
Promise.all (the second conjunct is the group schedule itself). -/
theorem C5_amended (ps : List String)
    (h9 : ∀ p ∈ sanitizePaths ps, pathDepth p ≤ 9) :
    List.Sorted (· < ·) (groupDepths ps) ∧
    refGroups ps = (groupDepths ps).map
      (fun d => (sanitizePaths ps).filter (fun p => pathDepth p = d)) := by
  refine ⟨?_, rfl⟩
  haveI hr : IsTotal Nat (fun a b => jsKeyLe a b = true) :=
    ⟨fun a b => charsLe_total (natDigits a) (natDigits b)⟩
  haveI ht : IsTrans Nat (fun a b => jsKeyLe a b = true) :=
    ⟨fun a b c h1 h2 => charsLe_trans (natDigits a) (natDigits b) (natDigits c) h1 h2⟩
  have hsorted : List.Sorted (fun a b => jsKeyLe a b = true) (groupDepths ps) :=
    List.sorted_insertionSort _ _
  have hnodup : (groupDepths ps).Nodup :=
    (List.perm_insertionSort _ _).nodup_iff.mpr (List.nodup_dedup _)
  have hmem : ∀ d ∈ groupDepths ps, d ≤ 9 := by
    intro d hd
    have hd1 : d ∈ depthKeys (sanitizePaths ps) :=
      (List.mem_insertionSort _).mp hd
    have hd2 : d ∈ (sanitizePaths ps).map pathDepth := List.mem_dedup.mp hd1
    obtain ⟨p, hp, rfl⟩ := List.mem_map.mp hd2
    exact h9 p hp
  have hle : List.Sorted (· ≤ ·) (groupDepths ps) :=
    List.Pairwise.imp_of_mem
      (fun ha hb hrel => jsKeyLe_digit_le _ (hmem _ ha) _ (hmem _ hb) hrel) hsorted
  exact hle.lt_of_le hnodup

/-- Witness for C5's amended claim, on paths of depths 3, 1 and 2. -/
theorem C5_witness :
    List.Sorted (· < ·) (groupDepths ["a.b.c", "x", "p.q"]) ∧
    refGroups ["a.b.c", "x", "p.q"] = (groupDepths ["a.b.c", "x", "p.q"]).map
      (fun d => (sanitizePaths ["a.b.c", "x", "p.q"]).filter (fun p => pathDepth p = d)) :=
  C5_amended ["a.b.c", "x", "p.q"] (by decide)
